import Mathlib

/-!
Verification development for the data cleaning and schema-unification
pipeline of the AI-Powered Market Intelligence repository
(`src/data_processing.py` and `src/api_integration.py`).

The code is shallowly embedded: pandas cells become an inductive `RawCell`
(CSV object columns hold a string or NaN) resp. `Cell` (JSON fields may also
hold a number); Python `float`/`int` string coercion becomes an exact
rational parser (`pyFloat`, `pyIntParse`); functions that can raise a Python
exception return `Except`; everything else is a total function.  Python
float values are modelled as exact rationals: all numerals appearing in the
claims are exactly representable in double precision, so the arithmetic the
claims mention incurs no rounding.  `float("nan")`/`float("inf")` inputs
(which Python parses to non-finite floats) are treated as parse failures;
no claim depends on non-finite values.
-/

open List

/-- A cell of a pandas column read from CSV with `dtype=object`:
either missing (NaN) or a string. -/
inductive RawCell where
  | na : RawCell
  | str : String → RawCell
deriving DecidableEq

/-- A value delivered by the iTunes JSON API or re-read from CSV:
missing, a string, or a number (exact rational model of a Python
int/float). -/
inductive Cell where
  | na : Cell
  | str : String → Cell
  | num : Rat → Cell
deriving DecidableEq

/-- Python `str.strip()` on the character list of a string. -/
def pyStrip (cs : List Char) : List Char :=
  ((cs.dropWhile Char.isWhitespace).reverse.dropWhile Char.isWhitespace).reverse

/-- Python `s.replace(c, "")`: remove every occurrence of one character. -/
def removeChar (c : Char) (cs : List Char) : List Char :=
  cs.filter (fun d => d != c)

/-- Decimal value of a digit string (most significant first). -/
def digitsToNat (cs : List Char) : Nat :=
  cs.foldl (fun a c => 10 * a + (c.toNat - 48)) 0

/-- Strip one optional leading sign, returning the sign as `±1`. -/
def stripSign : List Char → Int × List Char
  | '-' :: rest => (-1, rest)
  | '+' :: rest => (1, rest)
  | cs => (1, cs)

/-- Syntactic decomposition of a Python float literal:
sign, mantissa digits as a natural number, number of fractional digits,
and decimal exponent.  The denoted value is
`sgn * mant / 10 ^ fracLen * 10 ^ exp10`. -/
structure FloatLit where
  sgn : Int
  mant : Nat
  fracLen : Nat
  exp10 : Int
deriving DecidableEq

/-- Parse the optional exponent suffix of a Python float literal. -/
def parseExpDigits (mant fracLen : Nat) (sgn : Int) (rest : List Char) :
    Option FloatLit :=
  let se := stripSign rest
  let ed := se.2.takeWhile Char.isDigit
  let rest2 := se.2.dropWhile Char.isDigit
  if ed.isEmpty || !rest2.isEmpty then none
  else some ⟨sgn, mant, fracLen, se.1 * digitsToNat ed⟩

/-- Dispatch on what follows the mantissa of a Python float literal. -/
def parseAfterMant (mant fracLen : Nat) (sgn : Int) : List Char → Option FloatLit
  | [] => some ⟨sgn, mant, fracLen, 0⟩
  | 'e' :: rest => parseExpDigits mant fracLen sgn rest
  | 'E' :: rest => parseExpDigits mant fracLen sgn rest
  | _ => none

/-- Syntax of a Python float literal: optional sign, digits with an optional
decimal point (at least one digit overall), optional exponent. -/
def parseFloatRaw (cs : List Char) : Option FloatLit :=
  let sc := stripSign cs
  let ip := sc.2.takeWhile Char.isDigit
  let cs2 := sc.2.dropWhile Char.isDigit
  let fp := match cs2 with
    | '.' :: rest => rest.takeWhile Char.isDigit
    | _ => []
  let cs3 := match cs2 with
    | '.' :: rest => rest.dropWhile Char.isDigit
    | _ => cs2
  if ip.isEmpty && fp.isEmpty then none
  else parseAfterMant (digitsToNat ip * 10 ^ fp.length + digitsToNat fp)
    fp.length sc.1 cs3

/-- `10 ^ e` for an integer exponent, as a rational. -/
def pow10 (e : Int) : Rat :=
  if 0 ≤ e then ((10 ^ e.toNat : Nat) : Rat)
  else 1 / ((10 ^ (-e).toNat : Nat) : Rat)

/-- Exact value of a parsed float literal. -/
def floatVal (f : FloatLit) : Rat :=
  (f.sgn * f.mant : Int) / ((10 ^ f.fracLen : Nat) : Rat) * pow10 f.exp10

/-- Python `float(s)` on a string: strip whitespace, then parse; `none`
models the `ValueError` raised on malformed input. -/
def pyFloat (cs : List Char) : Option Rat :=
  (parseFloatRaw (pyStrip cs)).map floatVal

/-- Python `int(s)` on a string: optional sign and digits only. -/
def pyIntParse (cs : List Char) : Option Int :=
  let sc := stripSign (pyStrip cs)
  if sc.2.isEmpty || !sc.2.all Char.isDigit then none
  else some (sc.1 * digitsToNat sc.2)

/-- `convert_reviews` (data_processing.py, `clean_reviews_column`):
`NaN`/missing/`'0'`/empty map to 0; an `'M'`-containing string is parsed
without its `M`s and commas and multiplied by 1,000,000; a `'k'`-containing
string likewise by 1,000; otherwise the comma-stripped string is parsed,
a parse failure falling back to 0.  The `M`/`k` branches call `float`
outside any `try`, so a parse failure there is an uncaught `ValueError`,
modelled by `Except.error`. -/
def convert_reviews : RawCell → Except Unit Rat
  | .na => .ok 0
  | .str s =>
    if s = "NaN" then .ok 0
    else if pyStrip s.data = ['0'] ∨ pyStrip s.data = [] then .ok 0
    else if (pyStrip s.data).contains 'M' then
      match pyFloat (removeChar ',' (removeChar 'M' (pyStrip s.data))) with
      | some v => .ok (v * 1000000)
      | none => .error ()
    else if (pyStrip s.data).contains 'k' then
      match pyFloat (removeChar ',' (removeChar 'k' (pyStrip s.data))) with
      | some v => .ok (v * 1000)
      | none => .error ()
    else
      match pyFloat (removeChar ',' (pyStrip s.data)) with
      | some v => .ok v
      | none => .ok 0

/-- `convert_size` (data_processing.py, `clean_size_column`):
missing or the sentinel `"Varies with device"` map to NaN (modelled
`none`); an `'M'`-containing string is parsed as megabytes; a
`'k'`-containing string is divided by 1024; otherwise a direct parse,
failure falling back to NaN.  As in `convert_reviews`, the `M`/`k`
branches can raise. -/
def convert_size : RawCell → Except Unit (Option Rat)
  | .na => .ok none
  | .str s =>
    if s = "Varies with device" then .ok none
    else if (pyStrip s.data).contains 'M' then
      match pyFloat (removeChar ',' (removeChar 'M' (pyStrip s.data))) with
      | some v => .ok (some v)
      | none => .error ()
    else if (pyStrip s.data).contains 'k' then
      match pyFloat (removeChar ',' (removeChar 'k' (pyStrip s.data))) with
      | some v => .ok (some (v / 1024))
      | none => .error ()
    else .ok (pyFloat (pyStrip s.data))

/-- `convert_installs` (data_processing.py, `clean_installs_column`):
strip `+` and `,`, convert with `int`, any failure falling back to 0;
the `int` call sits inside `try`, so this never raises. -/
def convert_installs : RawCell → Int
  | .na => 0
  | .str s => (pyIntParse (removeChar ',' (removeChar '+' (pyStrip s.data)))).getD 0

/-- `convert_price` (data_processing.py, `clean_price_column`):
missing/`'0'`/`'Free'` map to 0.0; otherwise the `$`-stripped string is
parsed inside `try`, failure falling back to 0.0; never raises. -/
def convert_price : RawCell → Rat
  | .na => 0
  | .str s =>
    if pyStrip s.data = ['0'] ∨ pyStrip s.data = "Free".data then 0
    else (pyFloat (removeChar '$' (pyStrip s.data))).getD 0

/-- `convert_date` (data_processing.py, `clean_date_column`): missing maps
to `None`; otherwise `pd.to_datetime` runs inside `try` with failure
falling back to `None`.  The library date parser is a parameter; its
result is an abstract timestamp. -/
def convert_date (dateParse : String → Option Nat) : RawCell → Option Nat
  | .na => none
  | .str s => dateParse s

/-! ### Deduplication (`remove_duplicates`, data_processing.py)

A row of the cleaned Google Play frame, as far as deduplication sees it:
the `App` key, the (possibly missing) parsed `Last_Updated_Date`, and the
original row position.  The code calls
`sort_values('Last_Updated_Date', ascending=False, na_position='last')`
leaving `kind` at the pandas default `'quicksort'`, which pandas does not
document as stable; so the embedding takes the sorting routine as a
parameter constrained to what pandas guarantees for *every* kind
(`SortValuesSpec`): the result is a permutation of the rows, ordered
descending by timestamp with missing timestamps last, and the
missing-timestamp rows keep their original relative order (pandas appends
them by position rather than sorting them).  The relative order of rows
with *equal non-missing* timestamps is unspecified; preserving it
(`StableSortBy`) is the extra guarantee of `kind='mergesort'`/`'stable'`
only.  `drop_duplicates(subset=['App'], keep='first')` keeps the first
row per key in the sorted order. -/

structure AppRow where
  app : String
  lastUpdated : Option Nat
  idx : Nat
deriving DecidableEq

/-- Sort rank of a timestamp: a missing timestamp ranks below every
dated one. -/
def updRank : Option Nat → Nat
  | none => 0
  | some t => t + 1

/-- Comparison used to sort descending by `Last_Updated_Date` with
missing values last. -/
def leRow (a b : AppRow) : Bool := decide (updRank b.lastUpdated ≤ updRank a.lastUpdated)

/-- `drop_duplicates(subset=['App'], keep='first')`: scan in order,
keeping a row only when its key has not been seen. -/
def dropDupFirst : List AppRow → List String → List AppRow
  | [], _ => []
  | r :: rs, seen =>
    if r.app ∈ seen then dropDupFirst rs seen
    else r :: dropDupFirst rs (r.app :: seen)

/-- `remove_duplicates`: sort descending by date (missing last) with the
given sorting routine, drop later duplicates of each `App` key, and
report `initial_count - final_count` as the number of removed
duplicates. -/
def remove_duplicates (sortBy : List AppRow → List AppRow)
    (l : List AppRow) : List AppRow × Nat :=
  let d := dropDupFirst (sortBy l) []
  (d, l.length - d.length)

theorem leRow_trans (a b c : AppRow) : leRow a b → leRow b c → leRow a c := by
  simp only [leRow, decide_eq_true_eq]
  omega

theorem leRow_total (a b : AppRow) : leRow a b || leRow b a := by
  simp only [leRow, Bool.or_eq_true, decide_eq_true_eq]
  omega

/-- What `dropDupFirst` keeps for one key: nothing if the key was already
seen, otherwise exactly the first row with that key. -/
theorem filter_dropDupFirst (k : String) :
    ∀ (s : List AppRow) (seen : List String),
    (dropDupFirst s seen).filter (fun r => r.app == k) =
      if k ∈ seen then [] else ((s.filter (fun r => r.app == k)).head?).toList
  | [], seen => by
    simp [dropDupFirst]
  | r :: rs, seen => by
    rw [dropDupFirst]
    by_cases hseen : r.app ∈ seen
    · rw [if_pos hseen, filter_dropDupFirst k rs seen]
      by_cases hk : k ∈ seen
      · simp [hk]
      · have hr : ¬ (r.app == k) = true := by
          simp only [beq_iff_eq]
          intro he
          exact hk (he ▸ hseen)
        simp [hk, List.filter_cons, hr]
    · rw [if_neg hseen]
      by_cases hrk : r.app = k
      · have hk : ¬ k ∈ seen := fun h => hseen (hrk ▸ h)
        rw [List.filter_cons_of_pos (by simpa using hrk),
          filter_dropDupFirst k rs (r.app :: seen)]
        simp [hk, hrk]
      · rw [List.filter_cons_of_neg (by simpa using hrk),
          filter_dropDupFirst k rs (r.app :: seen)]
        have : (k ∈ r.app :: seen) ↔ (k ∈ seen) := by
          constructor
          · intro h
            rcases List.mem_cons.mp h with h1 | h1
            · exact absurd h1.symm hrk
            · exact h1
          · exact fun h => List.mem_cons_of_mem _ h
        by_cases hk : k ∈ seen
        · simp [hk, this]
        · rw [if_neg (by simpa [this] using hk), if_neg hk,
            List.filter_cons_of_neg (by simpa using hrk)]

/-- Two distinct members of a list occur in one order or the other. -/
theorem pair_sublist_of_mem {α : Type} {a b : α} {l : List α}
    (ha : a ∈ l) (hb : b ∈ l) (hne : a ≠ b) :
    [a, b] <+ l ∨ [b, a] <+ l := by
  induction l with
  | nil => cases ha
  | cons x xs ih =>
    rcases List.mem_cons.mp ha with rfl | ha'
    · have hb' : b ∈ xs := by
        rcases List.mem_cons.mp hb with rfl | h
        · exact absurd rfl hne
        · exact h
      exact Or.inl (List.cons_sublist_cons.mpr (List.singleton_sublist.mpr hb'))
    · rcases List.mem_cons.mp hb with rfl | hb'
      · exact Or.inr (List.cons_sublist_cons.mpr (List.singleton_sublist.mpr ha'))
      · rcases ih ha' hb' with h | h
        · exact Or.inl (h.cons x)
        · exact Or.inr (h.cons x)

/-- What every `sort_values('Last_Updated_Date', ascending=False,
na_position='last')` call guarantees, for any sort kind: a permutation of
the rows, ordered descending by timestamp rank with missing timestamps
last, the missing-timestamp rows keeping their original relative
order. -/
structure SortValuesSpec (sortBy : List AppRow → List AppRow) : Prop where
  perm : ∀ l, sortBy l ~ l
  sorted : ∀ l, (sortBy l).Pairwise (fun a c => leRow a c)
  na_order : ∀ l, (sortBy l).filter (fun r => r.lastUpdated.isNone) =
    l.filter (fun r => r.lastUpdated.isNone)

/-- The extra guarantee of a *stable* sort kind
(`kind='mergesort'`/`'stable'`, not the pandas default): any
already-ordered subsequence of the input survives as a subsequence of the
output. -/
def StableSortBy (sortBy : List AppRow → List AppRow) : Prop :=
  ∀ (l c : List AppRow), c.Pairwise (fun a b => leRow a b) → c <+ l →
    c <+ sortBy l

theorem pairwise_leRow_of_all_none (m : List AppRow)
    (hm : ∀ a ∈ m, a.lastUpdated = none) :
    m.Pairwise (fun a c => leRow a c) := by
  induction m with
  | nil => exact List.Pairwise.nil
  | cons x xs ih =>
    refine List.pairwise_cons.mpr
      ⟨?_, ih (fun a ha => hm a (List.mem_cons_of_mem _ ha))⟩
    intro a ha
    have hx := hm x (List.mem_cons_self _ _)
    have ha2 := hm a (List.mem_cons_of_mem _ ha)
    simp [leRow, hx, ha2, updRank]

/-- The stable merge sort meets the `sort_values` contract. -/
theorem mergeSort_sortValuesSpec :
    SortValuesSpec (fun l => l.mergeSort leRow) := by
  refine ⟨fun l => List.mergeSort_perm l leRow,
    fun l => List.sorted_mergeSort leRow_trans leRow_total l, ?_⟩
  intro l
  have hsub : l.filter (fun r => r.lastUpdated.isNone) <+ l.mergeSort leRow := by
    refine List.sublist_mergeSort leRow_trans leRow_total ?_ (List.filter_sublist l)
    refine pairwise_leRow_of_all_none _ ?_
    intro a ha
    have hpa := (List.mem_filter.mp ha).2
    simpa [Option.isNone_iff_eq_none] using hpa
  have hsub2 : l.filter (fun r => r.lastUpdated.isNone) <+
      (l.mergeSort leRow).filter (fun r => r.lastUpdated.isNone) := by
    have h2 := hsub.filter (fun r => r.lastUpdated.isNone)
    have heq : (l.filter (fun r => r.lastUpdated.isNone)).filter
        (fun r => r.lastUpdated.isNone) =
        l.filter (fun r => r.lastUpdated.isNone) :=
      List.filter_eq_self.mpr (fun a ha => (List.mem_filter.mp ha).2)
    rwa [heq] at h2
  have hperm2 : (l.mergeSort leRow).filter (fun r => r.lastUpdated.isNone) ~
      l.filter (fun r => r.lastUpdated.isNone) :=
    (List.mergeSort_perm l leRow).filter _
  exact (hsub2.eq_of_length hperm2.length_eq.symm).symm

/-- The stable merge sort is a stable sort. -/
theorem mergeSort_stableSortBy : StableSortBy (fun l => l.mergeSort leRow) :=
  fun _ _ hc hsub => List.sublist_mergeSort leRow_trans leRow_total hc hsub

/-- Generic core of the deduplication argument: if row `b` precedes every
other row of its key in the sorted frame, deduplication keeps exactly `b`
for that key. -/
theorem kept_row_of_first_in_sorted (sortBy : List AppRow → List AppRow)
    (hspec : SortValuesSpec sortBy) (l : List AppRow) (hnodup : l.Nodup)
    (b : AppRow) (hb : b ∈ l)
    (hfirst : ∀ r ∈ sortBy l, r.app = b.app → r ≠ b → [b, r] <+ sortBy l) :
    (remove_duplicates sortBy l).1.filter (fun r => r.app == b.app) = [b] := by
  have hmemb : b ∈ sortBy l := (hspec.perm l).mem_iff.mpr hb
  have hnodups : (sortBy l).Nodup := (hspec.perm l).symm.nodup hnodup
  have hfilter : ((sortBy l).filter (fun r => r.app == b.app)).head? = some b := by
    have hbf : b ∈ (sortBy l).filter (fun r => r.app == b.app) :=
      List.mem_filter.mpr ⟨hmemb, by simp⟩
    cases hf : (sortBy l).filter (fun r => r.app == b.app) with
    | nil => rw [hf] at hbf; cases hbf
    | cons x t =>
      have hx : x ∈ (sortBy l).filter (fun r => r.app == b.app) := by
        rw [hf]
        exact List.mem_cons_self x t
      obtain ⟨hxs, hxp⟩ := List.mem_filter.mp hx
      by_cases hxb : x = b
      · rw [hxb]
        rfl
      · exfalso
        have hsub : [b, x] <+ sortBy l := hfirst x hxs (by simpa using hxp) hxb
        have hsubf : [b, x].filter (fun r => r.app == b.app) <+
            (sortBy l).filter (fun r => r.app == b.app) := hsub.filter _
        have hbx2 : ([b, x] : List AppRow) <+ x :: t := by
          rw [← hf]
          have hfl : [b, x].filter (fun r => r.app == b.app) = [b, x] := by
            simp [List.filter, hxp]
          rwa [hfl] at hsubf
        have hnodupf : (x :: t).Nodup := by
          rw [← hf]
          exact hnodups.sublist (List.filter_sublist _)
        have hxt : x ∉ t := (List.nodup_cons.mp hnodupf).1
        cases hbx2 with
        | cons _ hsub2 => exact hxt (hsub2.subset (by simp))
        | cons₂ _ _ => exact hxb rfl
  show (dropDupFirst (sortBy l) []).filter (fun r => r.app == b.app) = [b]
  rw [filter_dropDupFirst, if_neg (List.not_mem_nil _), hfilter]
  rfl

/-- A strictly-latest row precedes every other row of its key in any
correctly sorted frame; no stability is needed. -/
theorem strict_best_first (sortBy : List AppRow → List AppRow)
    (hspec : SortValuesSpec sortBy) (l : List AppRow)
    (b : AppRow) (hb : b ∈ l)
    (hbest : ∀ r ∈ l, r.app = b.app →
      r = b ∨ updRank r.lastUpdated < updRank b.lastUpdated) :
    ∀ r ∈ sortBy l, r.app = b.app → r ≠ b → [b, r] <+ sortBy l := by
  intro r hrs hrapp hrne
  have hmemb : b ∈ sortBy l := (hspec.perm l).mem_iff.mpr hb
  have hrl : r ∈ l := (hspec.perm l).mem_iff.mp hrs
  rcases hbest r hrl hrapp with rfl | hlt
  · exact absurd rfl hrne
  · rcases pair_sublist_of_mem hmemb hrs (Ne.symm hrne) with h | h
    · exact h
    · exfalso
      have hp : ([r, b] : List AppRow).Pairwise (fun a c => leRow a c) :=
        (hspec.sorted l).sublist h
      have hrb : leRow r b := (List.pairwise_cons.mp hp).1 b (by simp)
      simp only [leRow, decide_eq_true_eq] at hrb
      omega

/-- Missing-timestamp rows keep their original relative order under every
sort kind, so the first input row of an all-missing key precedes the
other rows of that key. -/
theorem missing_best_first (sortBy : List AppRow → List AppRow)
    (hspec : SortValuesSpec sortBy) (l : List AppRow)
    (hidx : l.Pairwise (fun a c => a.idx < c.idx))
    (b : AppRow) (hb : b ∈ l) (hbnone : b.lastUpdated = none)
    (hbest : ∀ r ∈ l, r.app = b.app →
      r = b ∨ (r.lastUpdated = none ∧ b.idx < r.idx)) :
    ∀ r ∈ sortBy l, r.app = b.app → r ≠ b → [b, r] <+ sortBy l := by
  intro r hrs hrapp hrne
  have hrl : r ∈ l := (hspec.perm l).mem_iff.mp hrs
  rcases hbest r hrl hrapp with rfl | ⟨hrnone, hbi⟩
  · exact absurd rfl hrne
  · have hbl : [b, r] <+ l := by
      rcases pair_sublist_of_mem hb hrl (Ne.symm hrne) with h | h
      · exact h
      · exfalso
        have hp : ([r, b] : List AppRow).Pairwise (fun a c => a.idx < c.idx) :=
          hidx.sublist h
        have : r.idx < b.idx := (List.pairwise_cons.mp hp).1 b (by simp)
        omega
    have hfil : [b, r] <+ l.filter (fun s => s.lastUpdated.isNone) := by
      have h2 := hbl.filter (fun s => s.lastUpdated.isNone)
      rwa [show [b, r].filter (fun s => s.lastUpdated.isNone) = [b, r] from by
        simp [List.filter, hbnone, hrnone]] at h2
    rw [← hspec.na_order l] at hfil
    exact hfil.trans (List.filter_sublist _)

/-- Under an additionally *stable* sort, the earliest input row among
latest-tied rows precedes the other rows of its key. -/
theorem stable_best_first (sortBy : List AppRow → List AppRow)
    (hspec : SortValuesSpec sortBy) (hstable : StableSortBy sortBy)
    (l : List AppRow) (hidx : l.Pairwise (fun a c => a.idx < c.idx))
    (b : AppRow) (hb : b ∈ l)
    (hbest : ∀ r ∈ l, r.app = b.app →
      r = b ∨ updRank r.lastUpdated < updRank b.lastUpdated ∨
        (updRank r.lastUpdated = updRank b.lastUpdated ∧ b.idx < r.idx)) :
    ∀ r ∈ sortBy l, r.app = b.app → r ≠ b → [b, r] <+ sortBy l := by
  intro r hrs hrapp hrne
  have hmemb : b ∈ sortBy l := (hspec.perm l).mem_iff.mpr hb
  have hrl : r ∈ l := (hspec.perm l).mem_iff.mp hrs
  rcases hbest r hrl hrapp with rfl | hlt | ⟨heq, hbi⟩
  · exact absurd rfl hrne
  · rcases pair_sublist_of_mem hmemb hrs (Ne.symm hrne) with h | h
    · exact h
    · exfalso
      have hp : ([r, b] : List AppRow).Pairwise (fun a c => leRow a c) :=
        (hspec.sorted l).sublist h
      have hrb : leRow r b := (List.pairwise_cons.mp hp).1 b (by simp)
      simp only [leRow, decide_eq_true_eq] at hrb
      omega
  · rcases pair_sublist_of_mem hb hrl (Ne.symm hrne) with h | h
    · refine hstable l [b, r] ?_ h
      refine List.pairwise_cons.mpr ⟨?_, by simp⟩
      intro a ha
      rw [List.mem_singleton.mp ha]
      simp only [leRow, decide_eq_true_eq]
      omega
    · exfalso
      have hp : ([r, b] : List AppRow).Pairwise (fun a c => a.idx < c.idx) :=
        hidx.sublist h
      have : r.idx < b.idx := (List.pairwise_cons.mp hp).1 b (by simp)
      omega

/-- C2 (amended).  For every sorting routine meeting the `sort_values`
contract: the reported removed-duplicates count is the input row count
minus the output row count; the row kept for a key is the strictly
latest-updated one whenever there is one; rows with missing timestamps
sort after all dated rows, and a key all of whose rows lack a timestamp
keeps its first row in input order; but when two dated rows of a key tie
on the timestamp, the first-input-row tie-break holds only *under the
additional assumption that the sort is stable* — a guarantee the code,
leaving `kind` at the pandas default `'quicksort'`, does not have (see
the counterexample). -/
theorem remove_duplicates_spec (sortBy : List AppRow → List AppRow)
    (hspec : SortValuesSpec sortBy) (l : List AppRow)
    (hidx : l.Pairwise (fun a c => a.idx < c.idx))
    (b : AppRow) (hb : b ∈ l) :
    ((remove_duplicates sortBy l).2 =
      l.length - (remove_duplicates sortBy l).1.length) ∧
    ((∀ r ∈ l, r.app = b.app →
        r = b ∨ updRank r.lastUpdated < updRank b.lastUpdated) →
      (remove_duplicates sortBy l).1.filter (fun r => r.app == b.app) = [b]) ∧
    (b.lastUpdated = none →
      (∀ r ∈ l, r.app = b.app →
        r = b ∨ (r.lastUpdated = none ∧ b.idx < r.idx)) →
      (remove_duplicates sortBy l).1.filter (fun r => r.app == b.app) = [b]) ∧
    (StableSortBy sortBy →
      (∀ r ∈ l, r.app = b.app →
        r = b ∨ updRank r.lastUpdated < updRank b.lastUpdated ∨
          (updRank r.lastUpdated = updRank b.lastUpdated ∧ b.idx < r.idx)) →
      (remove_duplicates sortBy l).1.filter (fun r => r.app == b.app) = [b]) := by
  have hnodup : l.Nodup := by
    refine hidx.imp ?_
    intro a c h hac
    rw [hac] at h
    exact lt_irrefl _ h
  refine ⟨rfl, ?_, ?_, ?_⟩
  · intro hbest
    exact kept_row_of_first_in_sorted sortBy hspec l hnodup b hb
      (strict_best_first sortBy hspec l b hb hbest)
  · intro hbnone hbest
    exact kept_row_of_first_in_sorted sortBy hspec l hnodup b hb
      (missing_best_first sortBy hspec l hidx b hb hbnone hbest)
  · intro hstable hbest
    exact kept_row_of_first_in_sorted sortBy hspec l hnodup b hb
      (stable_best_first sortBy hspec hstable l hidx b hb hbest)

/-! ### Phase 2: free-API integration (`api_integration.py`) -/

/-- The character of one decimal digit. -/
def digitChar (n : Nat) : Char := Char.ofNat (48 + n)

/-- Digits of a natural number, most significant first; `fuel` bounds the
recursion depth (any `fuel` with `n < 10 ^ fuel` yields the digits). -/
def natReprAux : Nat → Nat → List Char
  | 0, _ => []
  | fuel + 1, n =>
    if n < 10 then [digitChar n]
    else natReprAux fuel (n / 10) ++ [digitChar (n % 10)]

/-- Decimal representation of a natural number, as in a Python f-string. -/
def natRepr (n : Nat) : String := ⟨natReprAux (n + 1) n⟩

/-- Python `str`/f-string formatting of an int. -/
def intRepr (n : Int) : String :=
  if n < 0 then "-" ++ natRepr n.natAbs else natRepr n.toNat

theorem digitsToNat_append_digit (cs : List Char) (c : Char) :
    digitsToNat (cs ++ [c]) = 10 * digitsToNat cs + (c.toNat - 48) := by
  simp [digitsToNat, List.foldl_append]

theorem digitChar_toNat {n : Nat} (h : n < 10) : (digitChar n).toNat = 48 + n := by
  interval_cases n <;> decide

theorem digitsToNat_natReprAux :
    ∀ (fuel n : Nat), n < 10 ^ fuel → digitsToNat (natReprAux fuel n) = n := by
  intro fuel
  induction fuel with
  | zero =>
    intro n hn
    interval_cases n
    rfl
  | succ f ih =>
    intro n hn
    rw [natReprAux]
    by_cases h10 : n < 10
    · rw [if_pos h10]
      show digitsToNat ([] ++ [digitChar n]) = n
      rw [digitsToNat_append_digit, digitChar_toNat h10]
      simp [digitsToNat]
    · rw [if_neg h10, digitsToNat_append_digit,
        digitChar_toNat (Nat.mod_lt _ (by omega)),
        ih (n / 10) (by rw [pow_succ] at hn; omega)]
      omega

theorem natRepr_inj {m n : Nat} (h : natRepr m = natRepr n) : m = n := by
  have hm : m < 10 ^ (m + 1) :=
    lt_of_lt_of_le (Nat.lt_pow_self (by norm_num) m)
      (Nat.pow_le_pow_right (by norm_num) (Nat.le_succ m))
  have hn : n < 10 ^ (n + 1) :=
    lt_of_lt_of_le (Nat.lt_pow_self (by norm_num) n)
      (Nat.pow_le_pow_right (by norm_num) (Nat.le_succ n))
  have hd : natReprAux (m + 1) m = natReprAux (n + 1) n := congrArg String.data h
  calc m = digitsToNat (natReprAux (m + 1) m) := (digitsToNat_natReprAux _ _ hm).symm
    _ = digitsToNat (natReprAux (n + 1) n) := by rw [hd]
    _ = n := digitsToNat_natReprAux _ _ hn

/-- `safe_convert_to_float` (api_integration.py): missing/`None`/empty map
to 0.0; numbers pass through; strings are stripped, with empty or a
case-insensitive `nan`/`null`/`none` mapping to 0.0, and parse failure
falling back to 0.0.  Total by construction (everything inside `try`). -/
def safe_convert_to_float : Cell → Rat
  | .na => 0
  | .num q => q
  | .str s =>
    if s.data = [] then 0
    else if pyStrip s.data = [] ∨
        (pyStrip s.data).map Char.toLower ∈
          ["nan".data, "null".data, "none".data] then 0
    else (pyFloat (pyStrip s.data)).getD 0

/-- Python `int()` applied to a float: truncation toward zero. -/
def pyTrunc (q : Rat) : Int := q.num.tdiv q.den

/-- `safe_convert_to_int` (api_integration.py): `int` of
`safe_convert_to_float`. -/
def safe_convert_to_int (c : Cell) : Int := pyTrunc (safe_convert_to_float c)

/-- The static `category_mapping` dictionary of `map_categories`
(api_integration.py), Google Play labels first, then iTunes labels. -/
def category_mapping : List (String × String) := [
  ("ART_AND_DESIGN", "Creative"),
  ("AUTO_AND_VEHICLES", "Lifestyle"),
  ("BEAUTY", "Lifestyle"),
  ("BOOKS_AND_REFERENCE", "Education"),
  ("BUSINESS", "Business"),
  ("COMICS", "Entertainment"),
  ("COMMUNICATION", "Social"),
  ("DATING", "Social"),
  ("EDUCATION", "Education"),
  ("ENTERTAINMENT", "Entertainment"),
  ("EVENTS", "Lifestyle"),
  ("FAMILY", "Family"),
  ("FINANCE", "Finance"),
  ("FOOD_AND_DRINK", "Food & Drink"),
  ("GAME", "Games"),
  ("HEALTH_AND_FITNESS", "Health & Fitness"),
  ("HOUSE_AND_HOME", "Lifestyle"),
  ("LIBRARIES_AND_DEMO", "Developer Tools"),
  ("LIFESTYLE", "Lifestyle"),
  ("MAPS_AND_NAVIGATION", "Navigation"),
  ("MEDICAL", "Medical"),
  ("MUSIC_AND_AUDIO", "Music"),
  ("NEWS_AND_MAGAZINES", "News"),
  ("PARENTING", "Family"),
  ("PERSONALIZATION", "Utilities"),
  ("PHOTOGRAPHY", "Photo & Video"),
  ("PRODUCTIVITY", "Productivity"),
  ("SHOPPING", "Shopping"),
  ("SOCIAL", "Social"),
  ("SPORTS", "Sports"),
  ("TOOLS", "Utilities"),
  ("TRAVEL_AND_LOCAL", "Travel"),
  ("VIDEO_PLAYERS", "Photo & Video"),
  ("WEATHER", "Weather"),
  ("Games", "Games"),
  ("Business", "Business"),
  ("Education", "Education"),
  ("Entertainment", "Entertainment"),
  ("Finance", "Finance"),
  ("Health & Fitness", "Health & Fitness"),
  ("Lifestyle", "Lifestyle"),
  ("Music", "Music"),
  ("News", "News"),
  ("Photo & Video", "Photo & Video"),
  ("Productivity", "Productivity"),
  ("Social Networking", "Social"),
  ("Sports", "Sports"),
  ("Travel", "Travel"),
  ("Utilities", "Utilities"),
  ("Shopping", "Shopping"),
  ("Food & Drink", "Food & Drink"),
  ("Medical", "Medical"),
  ("Navigation", "Navigation"),
  ("Reference", "Education"),
  ("Weather", "Weather")]

/-- `category_mapping.get(label, label)`: map the label if known,
otherwise pass it through unchanged. -/
def mapCategory (label : String) : String :=
  (category_mapping.lookup label).getD label

/-- One row of the cleaned Google Play CSV as `create_unified_schema`
reads it back (string-named columns; numeric columns arrive as cells and
go through the safe converters). -/
structure GpRow where
  app_name : String
  category : String
  rating : Cell
  review_count : Cell
  installs : Cell
  size_mb : Cell
  app_type : String
  price_usd : Cell
  content_rating : String
  last_updated : String
  genres : String
  current_version : String
  android_version : String
deriving DecidableEq

/-- One record fetched from the iTunes Search API (the fields
`create_unified_schema` consumes). -/
structure ItunesRow where
  trackId : Cell
  trackName : String
  artistName : String
  primaryGenreName : String
  averageUserRating : Cell
  userRatingCount : Cell
  price : Cell
  contentAdvisoryRating : String
  fileSizeBytes : Cell
  currentVersionReleaseDate : String
  version : String
  minimumOsVersion : String
deriving DecidableEq

/-- A row of the unified schema built by `create_unified_schema`. -/
structure UnifiedRow where
  app_id : String
  app_name : String
  platform : String
  unified_category : String
  original_category : String
  rating : Rat
  review_count : Rat
  installs : Int
  size_mb : Rat
  app_type : String
  price_usd : Rat
  content_rating : String
  last_updated : String
  genres : String
  data_source : String
  developer : String
  version : String
  min_os_version : String
deriving DecidableEq

/-- The Google Play branch of `create_unified_schema`.  `h` models
Python's seeded builtin string `hash`; the id is
`'gp_' + str(hash(name) % 1000000)`. -/
def gpToUnified (h : String → Int) (r : GpRow) : UnifiedRow :=
  { app_id := "gp_" ++ natRepr ((h r.app_name).emod 1000000).toNat
    app_name := r.app_name
    platform := "Android"
    unified_category := mapCategory r.category
    original_category := r.category
    rating := safe_convert_to_float r.rating
    review_count := safe_convert_to_float r.review_count
    installs := safe_convert_to_int r.installs
    size_mb := safe_convert_to_float r.size_mb
    app_type := r.app_type
    price_usd := safe_convert_to_float r.price_usd
    content_rating := r.content_rating
    last_updated := r.last_updated
    genres := r.genres
    data_source := "Google Play Store"
    developer := ""
    version := r.current_version
    min_os_version := r.android_version }

/-- The iTunes branch of `create_unified_schema`: id from `trackId`,
bytes→MB size conversion guarded by positivity, `app_type` derived from
the coerced price, `installs` hard-coded to 0. -/
def iosToUnified (r : ItunesRow) : UnifiedRow :=
  { app_id := "ios_" ++ intRepr (safe_convert_to_int r.trackId)
    app_name := r.trackName
    platform := "iOS"
    unified_category := mapCategory r.primaryGenreName
    original_category := r.primaryGenreName
    rating := safe_convert_to_float r.averageUserRating
    review_count := (safe_convert_to_int r.userRatingCount : Rat)
    installs := 0
    size_mb :=
      if 0 < safe_convert_to_float r.fileSizeBytes then
        safe_convert_to_float r.fileSizeBytes / (1024 * 1024)
      else 0
    app_type := if safe_convert_to_float r.price = 0 then "Free" else "Paid"
    price_usd := safe_convert_to_float r.price
    content_rating := r.contentAdvisoryRating
    last_updated := r.currentVersionReleaseDate
    genres := r.primaryGenreName
    data_source := "iTunes App Store"
    developer := r.artistName
    version := r.version
    min_os_version := r.minimumOsVersion }

/-- `create_unified_schema` (api_integration.py): all Google Play rows in
order, then all iTunes rows in order. -/
def create_unified_schema (h : String → Int)
    (gp : List GpRow) (ios : List ItunesRow) : List UnifiedRow :=
  gp.map (gpToUnified h) ++ ios.map iosToUnified

/-! ### Helper lemmas about the synthesized ids -/

theorem string_append_left_cancel {p s t : String} (h : p ++ s = p ++ t) : s = t := by
  have hd : p.data ++ s.data = p.data ++ t.data := by
    have := congrArg String.data h
    simpa using this
  exact String.ext (List.append_cancel_left hd)

theorem gp_id_inj {x y : Int} (hx : 0 ≤ x) (hy : 0 ≤ y)
    (h : "gp_" ++ natRepr x.toNat = "gp_" ++ natRepr y.toNat) : x = y := by
  have := natRepr_inj (string_append_left_cancel h)
  omega

theorem ios_id_inj {x y : Int} (hx : 0 ≤ x) (hy : 0 ≤ y)
    (h : "ios_" ++ intRepr x = "ios_" ++ intRepr y) : x = y := by
  rw [intRepr, intRepr, if_neg (by omega), if_neg (by omega)] at h
  have := natRepr_inj (string_append_left_cancel h)
  omega

theorem gp_ne_ios (s t : String) : "gp_" ++ s ≠ "ios_" ++ t := by
  intro h
  have := congrArg String.data h
  simp at this

/-! ### Sample rows used to instantiate hypotheses of the theorems -/

/-- A representative cleaned Google Play row as re-read by phase 2
(numeric columns come back as numbers). -/
def sampleGpRow : GpRow :=
  { app_name := "Photo Editor & Candy Camera & Grid & ScrapBook"
    category := "ART_AND_DESIGN"
    rating := .num 4
    review_count := .num 159
    installs := .num 10000
    size_mb := .num 19
    app_type := "Free"
    price_usd := .num 0
    content_rating := "Everyone"
    last_updated := "2018-01-07"
    genres := "Art & Design"
    current_version := "1.0.0"
    android_version := "4.0.3 and up" }

/-- The Android row of the end-to-end example in §8 of the specification:
category `GAME`, reviews `2.3M` (already coerced by phase 1), price 0,
free app. -/
def gameGpRow : GpRow :=
  { app_name := "Subway Surfers"
    category := "GAME"
    rating := .num 4
    review_count := .num 2300000
    installs := .num 1000000000
    size_mb := .num 76
    app_type := "Free"
    price_usd := .num 0
    content_rating := "Everyone 10+"
    last_updated := "2018-07-12"
    genres := "Arcade"
    current_version := "1.90.0"
    android_version := "4.1 and up" }

/-- The iOS row of the end-to-end example in §8 of the specification:
genre `Games`, `averageUserRating=4.5`, `price=0`. -/
def gamesIosRow : ItunesRow :=
  { trackId := .num 512939461
    trackName := "Subway Surfers"
    artistName := "Sybo Games ApS"
    primaryGenreName := "Games"
    averageUserRating := .num (9 / 2)
    userRatingCount := .num 27760
    price := .num 0
    contentAdvisoryRating := "9+"
    fileSizeBytes := .num 295239680
    currentVersionReleaseDate := "2018-07-10"
    version := "1.90.0"
    minimumOsVersion := "9.0" }

/-- C7.  The unified output is exactly the Google Play rows in arrival
order followed by the iTunes rows in arrival order: the row count is the
sum of the source counts, each platform block is contiguous, and the
within-platform order is the arrival order. -/
theorem unified_is_ordered_concat (h : String → Int)
    (gp : List GpRow) (ios : List ItunesRow) :
    (create_unified_schema h gp ios).length = gp.length + ios.length ∧
    (create_unified_schema h gp ios).take gp.length = gp.map (gpToUnified h) ∧
    (create_unified_schema h gp ios).drop gp.length = ios.map iosToUnified ∧
    (∀ u ∈ (create_unified_schema h gp ios).take gp.length,
      u.platform = "Android") ∧
    (∀ u ∈ (create_unified_schema h gp ios).drop gp.length, u.platform = "iOS") := by
  have hlen : (gp.map (gpToUnified h)).length = gp.length := List.length_map _ _
  have htake : (create_unified_schema h gp ios).take gp.length =
      gp.map (gpToUnified h) := by
    rw [create_unified_schema, List.take_left' hlen]
  have hdrop : (create_unified_schema h gp ios).drop gp.length =
      ios.map iosToUnified := by
    rw [create_unified_schema, List.drop_left' hlen]
  refine ⟨by simp [create_unified_schema], htake, hdrop, ?_, ?_⟩
  · rw [htake]
    intro u hu
    obtain ⟨r, _, rfl⟩ := List.mem_map.mp hu
    rfl
  · rw [hdrop]
    intro u hu
    obtain ⟨r, _, rfl⟩ := List.mem_map.mp hu
    rfl

/-- Witness for C7 at a concrete one-row-per-platform input. -/
theorem unified_is_ordered_concat_witness :
    (gpToUnified (fun _ => 0) sampleGpRow ∈
      (create_unified_schema (fun _ => 0) [sampleGpRow] [gamesIosRow]).take 1) ∧
    (gpToUnified (fun _ => 0) sampleGpRow).platform = "Android" ∧
    (iosToUnified gamesIosRow ∈
      (create_unified_schema (fun _ => 0) [sampleGpRow] [gamesIosRow]).drop 1) ∧
    (iosToUnified gamesIosRow).platform = "iOS" := by
  have h := unified_is_ordered_concat (fun _ => 0) [sampleGpRow] [gamesIosRow]
  have hm1 : gpToUnified (fun _ => 0) sampleGpRow ∈
      (create_unified_schema (fun _ => 0) [sampleGpRow] [gamesIosRow]).take 1 := by
    rw [show (1 : Nat) = ([sampleGpRow] : List GpRow).length from rfl, h.2.1]
    exact List.mem_map_of_mem _ (List.mem_singleton.mpr rfl)
  have hm2 : iosToUnified gamesIosRow ∈
      (create_unified_schema (fun _ => 0) [sampleGpRow] [gamesIosRow]).drop 1 := by
    rw [show (1 : Nat) = ([sampleGpRow] : List GpRow).length from rfl, h.2.2.1]
    exact List.mem_map_of_mem _ (List.mem_singleton.mpr rfl)
  exact ⟨hm1, h.2.2.2.1 _ hm1, hm2, h.2.2.2.2 _ hm2⟩

/-- C10.  Every iTunes-sourced unified row has `installs = 0` (the field
is hard-coded in the iOS branch), so a unified row with positive installs
can only come from the Google Play source. -/
theorem ios_installs_always_zero :
    (∀ r : ItunesRow, (iosToUnified r).installs = 0) ∧
    (∀ (h : String → Int) (gp : List GpRow) (ios : List ItunesRow),
      ∀ u ∈ create_unified_schema h gp ios, 0 < u.installs →
        u.data_source = "Google Play Store" ∧ u.platform = "Android") := by
  refine ⟨fun r => rfl, ?_⟩
  intro h gp ios u hu hpos
  rcases List.mem_append.mp hu with hg | hi
  · obtain ⟨r, _, rfl⟩ := List.mem_map.mp hg
    exact ⟨rfl, rfl⟩
  · obtain ⟨r, _, rfl⟩ := List.mem_map.mp hi
    exact absurd hpos (by simp [iosToUnified])

/-- Witness for C10: a Google Play row with 10,000 installs. -/
theorem ios_installs_always_zero_witness :
    (iosToUnified gamesIosRow).installs = 0 ∧
    gpToUnified (fun _ => 0) sampleGpRow ∈
      create_unified_schema (fun _ => 0) [sampleGpRow] [gamesIosRow] ∧
    0 < (gpToUnified (fun _ => 0) sampleGpRow).installs ∧
    (gpToUnified (fun _ => 0) sampleGpRow).data_source = "Google Play Store" ∧
    (gpToUnified (fun _ => 0) sampleGpRow).platform = "Android" := by
  have hmem : gpToUnified (fun _ => 0) sampleGpRow ∈
      create_unified_schema (fun _ => 0) [sampleGpRow] [gamesIosRow] := by
    simp [create_unified_schema]
  have hpos : 0 < (gpToUnified (fun _ => 0) sampleGpRow).installs := by
    show 0 < safe_convert_to_int sampleGpRow.installs
    rw [show sampleGpRow.installs = Cell.num 10000 from rfl]
    rw [show safe_convert_to_int (Cell.num 10000) = pyTrunc 10000 from rfl]
    rw [pyTrunc]
    norm_num
  have hconc := (ios_installs_always_zero.2 (fun _ => 0) [sampleGpRow] [gamesIosRow]
    (gpToUnified (fun _ => 0) sampleGpRow) hmem hpos)
  exact ⟨ios_installs_always_zero.1 gamesIosRow, hmem, hpos, hconc.1, hconc.2⟩

/-! ### Category mapping (C6) -/

theorem mem_of_lookup {l : List (String × String)} {k v : String}
    (h : l.lookup k = some v) : (k, v) ∈ l := by
  induction l with
  | nil => simp [List.lookup] at h
  | cons p rest ih =>
    rw [List.lookup] at h
    by_cases hk : (k == p.1) = true
    · rw [hk] at h
      have hkv : (k, v) = p := by
        obtain ⟨p1, p2⟩ := p
        have h2 : p2 = v := Option.some_inj.mp h
        have h1 : k = p1 := beq_iff_eq.mp hk
        rw [h1, h2]
      rw [hkv]
      exact List.mem_cons_self p rest
    · rw [Bool.eq_false_iff.mpr hk] at h
      exact List.mem_cons_of_mem _ (ih h)

theorem mapped_values_nonempty : ∀ p ∈ category_mapping, p.2 ≠ "" := by decide

/-- The mapping fallback keeps non-emptiness: a non-empty source label
yields a non-empty unified label. -/
theorem mapCategory_ne_empty {c : String} (hc : c ≠ "") : mapCategory c ≠ "" := by
  rw [mapCategory]
  cases hl : category_mapping.lookup c with
  | none => simpa using hc
  | some v =>
    simpa using mapped_values_nonempty _ (mem_of_lookup hl)

/-- C6 (amended).  Every unified row's `unified_category` is the
`category_mapping` entry of its source label when that label is mapped and
the source label itself otherwise, and it is non-empty whenever the source
label is non-empty.  (An empty source label passes through as an empty
unified category — see the counterexample.) -/
theorem unified_category_mapped_or_identity (h : String → Int)
    (gp : List GpRow) (ios : List ItunesRow) :
    ∀ u ∈ create_unified_schema h gp ios,
      u.unified_category = mapCategory u.original_category ∧
      (u.original_category ≠ "" → u.unified_category ≠ "") := by
  intro u hu
  rcases List.mem_append.mp hu with hg | hi
  · obtain ⟨r, _, rfl⟩ := List.mem_map.mp hg
    exact ⟨rfl, fun hc => mapCategory_ne_empty hc⟩
  · obtain ⟨r, _, rfl⟩ := List.mem_map.mp hi
    exact ⟨rfl, fun hc => mapCategory_ne_empty hc⟩

/-- Witness for C6 at concrete mapped (`GAME` ↦ `Games`) and unmapped
(`Arcade` ↦ itself) labels. -/
theorem unified_category_mapped_or_identity_witness :
    gpToUnified (fun _ => 0) gameGpRow ∈
      create_unified_schema (fun _ => 0) [gameGpRow] [gamesIosRow] ∧
    (gpToUnified (fun _ => 0) gameGpRow).unified_category = "Games" ∧
    (gpToUnified (fun _ => 0) gameGpRow).unified_category ≠ "" ∧
    mapCategory "Arcade" = "Arcade" := by
  have hmem : gpToUnified (fun _ => 0) gameGpRow ∈
      create_unified_schema (fun _ => 0) [gameGpRow] [gamesIosRow] := by
    simp [create_unified_schema]
  have h := unified_category_mapped_or_identity (fun _ => 0) [gameGpRow] [gamesIosRow]
    (gpToUnified (fun _ => 0) gameGpRow) hmem
  refine ⟨hmem, ?_, h.2 (by decide), by decide⟩
  rw [h.1]
  decide

/-- An iTunes record whose `primaryGenreName` came back absent, so the
fetch loop substituted its default `''`. -/
def blankGenreIosRow : ItunesRow :=
  { trackId := .num 42
    trackName := "Mystery App"
    artistName := "Acme"
    primaryGenreName := ""
    averageUserRating := .na
    userRatingCount := .na
    price := .num 0
    contentAdvisoryRating := ""
    fileSizeBytes := .na
    currentVersionReleaseDate := ""
    version := ""
    minimumOsVersion := "" }

/-- Counterexample to C6 as stated: a row whose source label is the empty
string (the fetch loop's default for a missing genre) gets the empty
string as `unified_category`, so `unified_category` is not always
non-empty. -/
theorem unified_category_empty_counterexample :
    (create_unified_schema (fun _ => 0) [] [blankGenreIosRow]).map
      UnifiedRow.unified_category = [""] ∧
    ¬ (∀ u ∈ create_unified_schema (fun _ => 0) [] [blankGenreIosRow],
        u.unified_category ≠ "") := by
  constructor
  · decide
  · intro hall
    exact hall (iosToUnified blankGenreIosRow) (by simp [create_unified_schema])
      (by decide)

/-! ### app_id uniqueness (C3) -/

/-- C3 (amended).  `app_id` is unique across the merged set *provided*
the hash residues `hash(name) % 1000000` of the Google Play rows are
pairwise distinct and the iTunes `trackId`s coerce to pairwise distinct
nonnegative integers; a `gp_` id never equals an `ios_` id.  (Without the
residue hypothesis uniqueness fails — the hash is reduced modulo
1,000,000, see the counterexample.) -/
theorem app_id_unique_without_collisions (h : String → Int)
    (gp : List GpRow) (ios : List ItunesRow)
    (hgp : (gp.map fun r => (h r.app_name).emod 1000000).Pairwise (· ≠ ·))
    (hios : (ios.map fun r => safe_convert_to_int r.trackId).Pairwise (· ≠ ·))
    (hnn : ∀ r ∈ ios, 0 ≤ safe_convert_to_int r.trackId) :
    (create_unified_schema h gp ios).Pairwise
      (fun a b => a.app_id ≠ b.app_id) := by
  rw [create_unified_schema, List.pairwise_append]
  refine ⟨?_, ?_, ?_⟩
  · rw [List.pairwise_map]
    rw [List.pairwise_map] at hgp
    refine hgp.imp ?_
    intro a b hne heq
    refine hne ?_
    have hx : 0 ≤ (h a.app_name).emod 1000000 :=
      Int.emod_nonneg _ (by norm_num)
    have hy : 0 ≤ (h b.app_name).emod 1000000 :=
      Int.emod_nonneg _ (by norm_num)
    exact gp_id_inj hx hy heq
  · rw [List.pairwise_map]
    rw [List.pairwise_map] at hios
    refine List.Pairwise.imp_of_mem ?_ hios
    intro a b ha hb hne heq
    exact hne (ios_id_inj (hnn a ha) (hnn b hb) heq)
  · intro a ha b hb
    obtain ⟨r, _, rfl⟩ := List.mem_map.mp ha
    obtain ⟨t, _, rfl⟩ := List.mem_map.mp hb
    exact gp_ne_ios _ _

/-- Witness for C3's amended statement: two Google Play rows whose name
hashes differ modulo 1,000,000 and one iTunes row. -/
theorem app_id_unique_without_collisions_witness :
    (([sampleGpRow, gameGpRow].map
        fun r => ((fun s => (s.length : Int)) r.app_name).emod 1000000).Pairwise
      (· ≠ ·)) ∧
    (([gamesIosRow].map fun r => safe_convert_to_int r.trackId).Pairwise
      (· ≠ ·)) ∧
    (∀ r ∈ [gamesIosRow], 0 ≤ safe_convert_to_int r.trackId) ∧
    (create_unified_schema (fun s => (s.length : Int))
        [sampleGpRow, gameGpRow] [gamesIosRow]).Pairwise
      (fun a b => a.app_id ≠ b.app_id) := by
  have h1 : (([sampleGpRow, gameGpRow].map
      fun r => ((fun s => (s.length : Int)) r.app_name).emod 1000000).Pairwise
        (· ≠ ·)) := by
    decide
  have h3 : ∀ r ∈ [gamesIosRow], 0 ≤ safe_convert_to_int r.trackId := by
    intro r hr
    rw [List.mem_singleton.mp hr]
    show 0 ≤ pyTrunc (safe_convert_to_float (Cell.num 512939461))
    rw [show safe_convert_to_float (Cell.num 512939461) = 512939461 from rfl, pyTrunc]
    norm_num
  have h2 : (([gamesIosRow].map fun r => safe_convert_to_int r.trackId).Pairwise
      (· ≠ ·)) := by
    simp
  exact ⟨h1, h2, h3,
    app_id_unique_without_collisions (fun s => (s.length : Int))
      [sampleGpRow, gameGpRow] [gamesIosRow] h1 h2 h3⟩

/-- A first Google Play row hashing (under the modelled hash) to
residue 0. -/
def gpRowAlpha : GpRow := { sampleGpRow with app_name := "Alpha Notes" }

/-- A second, different Google Play row hashing to the same residue. -/
def gpRowBeta : GpRow := { sampleGpRow with app_name := "Beta Notes" }

/-- Counterexample to C3 as stated: the id is a hash residue modulo
1,000,000, so two distinct rows can receive the same `app_id` (exhibited
with a colliding hash; Python's seeded string hash admits such collisions
for any seed by pigeonhole). -/
theorem app_id_collision_counterexample :
    (gpToUnified (fun _ => 0) gpRowAlpha).app_id =
      (gpToUnified (fun _ => 0) gpRowBeta).app_id ∧
    gpToUnified (fun _ => 0) gpRowAlpha ≠ gpToUnified (fun _ => 0) gpRowBeta ∧
    create_unified_schema (fun _ => 0) [gpRowAlpha, gpRowBeta] [] =
      [gpToUnified (fun _ => 0) gpRowAlpha, gpToUnified (fun _ => 0) gpRowBeta] := by
  refine ⟨rfl, ?_, rfl⟩
  intro heq
  have hn := congrArg UnifiedRow.app_name heq
  simp only [gpToUnified] at hn
  exact absurd hn (by decide)

/-! ### iTunes-side derivations and the §8 end-to-end example (C8) -/

/-- C8.  For every iTunes record the unified `app_type` is derived from
the coerced price (`Free` exactly when it is 0, `Paid` otherwise) and
`size_mb` is `fileSizeBytes / 1048576` whenever the coerced byte count is
positive; and the §8 end-to-end input — one Android row (category `GAME`,
reviews `2.3M`, price 0, a free app) and one iOS row (genre `Games`,
price 0) — unifies to 2 rows, both with `unified_category = "Games"` and
`app_type = "Free"` (the `2.3M` reviews having been coerced to 2,300,000
by phase 1). -/
theorem ios_derived_fields_and_e2e :
    (∀ r : ItunesRow,
      ((iosToUnified r).app_type = "Free" ↔ safe_convert_to_float r.price = 0) ∧
      ((iosToUnified r).app_type = "Paid" ↔ ¬ safe_convert_to_float r.price = 0) ∧
      (0 < safe_convert_to_float r.fileSizeBytes →
        (iosToUnified r).size_mb = safe_convert_to_float r.fileSizeBytes / 1048576)) ∧
    convert_reviews (.str "2.3M") = .ok 2300000 ∧
    (create_unified_schema (fun _ => 0) [gameGpRow] [gamesIosRow]).length = 2 ∧
    (create_unified_schema (fun _ => 0) [gameGpRow] [gamesIosRow]).map
      UnifiedRow.unified_category = ["Games", "Games"] ∧
    (create_unified_schema (fun _ => 0) [gameGpRow] [gamesIosRow]).map
      UnifiedRow.app_type = ["Free", "Free"] := by
  refine ⟨?_, ?_, by decide, by decide, by decide⟩
  · intro r
    refine ⟨?_, ?_, ?_⟩
    · show (if safe_convert_to_float r.price = 0 then "Free" else "Paid") = "Free" ↔ _
      split_ifs with hc
      · exact iff_of_true rfl hc
      · exact iff_of_false (by decide) hc
    · show (if safe_convert_to_float r.price = 0 then "Free" else "Paid") = "Paid" ↔ _
      split_ifs with hc
      · exact iff_of_false (by decide) (by simpa using hc)
      · exact iff_of_true rfl hc
    · intro hpos
      show (if 0 < safe_convert_to_float r.fileSizeBytes then
        safe_convert_to_float r.fileSizeBytes / (1024 * 1024) else 0) = _
      rw [if_pos hpos]
      norm_num
  · rw [convert_reviews]
    rw [if_neg (by decide), if_neg (by decide), if_pos (by decide)]
    rw [pyFloat, show parseFloatRaw
        (pyStrip (removeChar ',' (removeChar 'M' (pyStrip "2.3M".data))))
      = some ⟨1, 23, 1, 0⟩ from by decide]
    norm_num [Option.map, floatVal, pow10]

/-- Witness for C8's positive-size hypothesis at the concrete iOS row
(295,239,680 bytes). -/
theorem ios_derived_fields_and_e2e_witness :
    0 < safe_convert_to_float gamesIosRow.fileSizeBytes ∧
    (iosToUnified gamesIosRow).size_mb =
      safe_convert_to_float gamesIosRow.fileSizeBytes / 1048576 := by
  have hpos : 0 < safe_convert_to_float gamesIosRow.fileSizeBytes := by
    rw [show gamesIosRow.fileSizeBytes = Cell.num 295239680 from rfl]
    rw [show safe_convert_to_float (Cell.num 295239680) = 295239680 from rfl]
    norm_num
  exact ⟨hpos, (ios_derived_fields_and_e2e.1 gamesIosRow).2.2 hpos⟩

/-! ### Re-running the unifier on its own output (C9)

`create_unified_schema` reads its Google Play input by column name from a
data frame.  To examine a re-run on the unifier's own output, rows are
presented as name→cell lookups over the 18 unified columns; a directly
indexed column that is absent raises `KeyError`, modelled as
`Except.error` carrying the column name. -/

/-- Python `str()` of a cell as used for the string-typed unified fields.
Missing values print as `nan`; numeric formatting is approximated by the
rational's decimal form (never reached in the theorems below, which fail
before any string field is built). -/
def pyStrCell : Cell → String
  | .na => "nan"
  | .str s => s
  | .num q => toString q

/-- The columns of a unified row, by name. -/
def unifiedLookup (u : UnifiedRow) : String → Option Cell
  | "app_id" => some (.str u.app_id)
  | "app_name" => some (.str u.app_name)
  | "platform" => some (.str u.platform)
  | "unified_category" => some (.str u.unified_category)
  | "original_category" => some (.str u.original_category)
  | "rating" => some (.num u.rating)
  | "review_count" => some (.num u.review_count)
  | "installs" => some (.num u.installs)
  | "size_mb" => some (.num u.size_mb)
  | "app_type" => some (.str u.app_type)
  | "price_usd" => some (.num u.price_usd)
  | "content_rating" => some (.str u.content_rating)
  | "last_updated" => some (.str u.last_updated)
  | "genres" => some (.str u.genres)
  | "data_source" => some (.str u.data_source)
  | "developer" => some (.str u.developer)
  | "version" => some (.str u.version)
  | "min_os_version" => some (.str u.min_os_version)
  | _ => none

/-- `row[col]`: `KeyError` on an absent column, modelled as an error
carrying the column name. -/
def needCol (look : String → Option Cell) (c : String) : Except String Cell :=
  match look c with
  | some v => .ok v
  | none => .error c

/-- The Google Play branch of `create_unified_schema` on a row of an
arbitrary frame, columns accessed in the order the dict literal evaluates
them.  `genres`, `current_version` and `android_version` are read with
`row.get(..., '')` and cannot raise; the directly indexed columns can. -/
def gpReprocessRow (h : String → Int) (look : String → Option Cell) :
    Except String UnifiedRow := do
  let an ← needCol look "app_name"
  let cat ← needCol look "category"
  let rat ← needCol look "rating"
  let rev ← needCol look "review_count"
  let ins ← needCol look "installs"
  let sz ← needCol look "size_mb"
  let ty ← needCol look "app_type"
  let pr ← needCol look "price_usd"
  let cr ← needCol look "content_rating"
  let lu ← needCol look "last_updated"
  pure
    { app_id := "gp_" ++ natRepr ((h (pyStrCell an)).emod 1000000).toNat
      app_name := pyStrCell an
      platform := "Android"
      unified_category := mapCategory (pyStrCell cat)
      original_category := pyStrCell cat
      rating := safe_convert_to_float rat
      review_count := safe_convert_to_float rev
      installs := pyTrunc (safe_convert_to_float ins)
      size_mb := safe_convert_to_float sz
      app_type := pyStrCell ty
      price_usd := safe_convert_to_float pr
      content_rating := pyStrCell cr
      last_updated := pyStrCell lu
      genres := pyStrCell ((look "genres").getD (.str ""))
      data_source := "Google Play Store"
      developer := ""
      version := pyStrCell ((look "current_version").getD (.str ""))
      min_os_version := pyStrCell ((look "android_version").getD (.str "")) }

/-- Feeding a table of already-unified rows back through the Google Play
branch of the unifier. -/
def rerun_unifier (h : String → Int) (us : List UnifiedRow) :
    Except String (List UnifiedRow) :=
  us.mapM (fun u => gpReprocessRow h (unifiedLookup u))

/-- C9 (amended).  The unifier maps each accepted input row to exactly
one output row, so a run preserves total row count; but re-running it on
its own (non-empty) output is not a row-count-preserving no-op: the
unified schema has no `category` column, so the first reprocessed row
raises `KeyError('category')` and no output table is produced at all. -/
theorem rerun_unifier_raises (h : String → Int) :
    (∀ (gp : List GpRow) (ios : List ItunesRow),
      (create_unified_schema h gp ios).length = gp.length + ios.length) ∧
    (∀ (u : UnifiedRow) (us : List UnifiedRow),
      rerun_unifier h (u :: us) = .error "category") := by
  constructor
  · intro gp ios
    simp [create_unified_schema]
  · intro u us
    rfl

/-- Counterexample to C9 as stated: a concrete one-row unified output on
which the re-run yields `KeyError('category')` instead of a table of the
same row count. -/
theorem rerun_unifier_counterexample :
    (create_unified_schema (fun _ => 0) [sampleGpRow] []).length = 1 ∧
    rerun_unifier (fun _ => 0) (create_unified_schema (fun _ => 0) [sampleGpRow] []) =
      .error "category" := by
  exact ⟨rfl, rfl⟩

/-! ### Branch lemmas for the count/size normalizers -/

theorem convert_reviews_M_branch (s : String) (v : Rat)
    (h1 : s ≠ "NaN") (h2 : ¬(pyStrip s.data = ['0'] ∨ pyStrip s.data = []))
    (hM : (pyStrip s.data).contains 'M' = true)
    (hp : pyFloat (removeChar ',' (removeChar 'M' (pyStrip s.data))) = some v) :
    convert_reviews (.str s) = .ok (v * 1000000) := by
  rw [convert_reviews, if_neg h1, if_neg h2, if_pos hM, hp]

theorem convert_reviews_k_branch (s : String) (v : Rat)
    (h1 : s ≠ "NaN") (h2 : ¬(pyStrip s.data = ['0'] ∨ pyStrip s.data = []))
    (hM : (pyStrip s.data).contains 'M' = false)
    (hk : (pyStrip s.data).contains 'k' = true)
    (hp : pyFloat (removeChar ',' (removeChar 'k' (pyStrip s.data))) = some v) :
    convert_reviews (.str s) = .ok (v * 1000) := by
  rw [convert_reviews, if_neg h1, if_neg h2,
    if_neg (by rw [hM]; exact Bool.false_ne_true), if_pos hk, hp]

theorem convert_reviews_plain_fallback (s : String)
    (h1 : s ≠ "NaN") (h2 : ¬(pyStrip s.data = ['0'] ∨ pyStrip s.data = []))
    (hM : (pyStrip s.data).contains 'M' = false)
    (hk : (pyStrip s.data).contains 'k' = false)
    (hp : pyFloat (removeChar ',' (pyStrip s.data)) = none) :
    convert_reviews (.str s) = .ok 0 := by
  rw [convert_reviews, if_neg h1, if_neg h2,
    if_neg (by rw [hM]; exact Bool.false_ne_true),
    if_neg (by rw [hk]; exact Bool.false_ne_true), hp]

theorem convert_size_M_branch (s : String) (v : Rat)
    (h1 : s ≠ "Varies with device")
    (hM : (pyStrip s.data).contains 'M' = true)
    (hp : pyFloat (removeChar ',' (removeChar 'M' (pyStrip s.data))) = some v) :
    convert_size (.str s) = .ok (some v) := by
  rw [convert_size, if_neg h1, if_pos hM, hp]

theorem convert_size_k_branch (s : String) (v : Rat)
    (h1 : s ≠ "Varies with device")
    (hM : (pyStrip s.data).contains 'M' = false)
    (hk : (pyStrip s.data).contains 'k' = true)
    (hp : pyFloat (removeChar ',' (removeChar 'k' (pyStrip s.data))) = some v) :
    convert_size (.str s) = .ok (some (v / 1024)) := by
  rw [convert_size, if_neg h1,
    if_neg (by rw [hM]; exact Bool.false_ne_true), if_pos hk, hp]

theorem convert_size_plain (s : String)
    (h1 : s ≠ "Varies with device")
    (hM : (pyStrip s.data).contains 'M' = false)
    (hk : (pyStrip s.data).contains 'k' = false) :
    convert_size (.str s) = .ok (pyFloat (pyStrip s.data)) := by
  rw [convert_size, if_neg h1,
    if_neg (by rw [hM]; exact Bool.false_ne_true),
    if_neg (by rw [hk]; exact Bool.false_ne_true)]

/-- Exactly when the count normalizer raises: a non-sentinel string whose
`M`- (or, failing that, `k`-) cleaned form does not parse as a float. -/
theorem convert_reviews_error_iff (s : String) :
    convert_reviews (.str s) = .error () ↔
      (s ≠ "NaN" ∧ pyStrip s.data ≠ ['0'] ∧ pyStrip s.data ≠ [] ∧
        (((pyStrip s.data).contains 'M' = true ∧
            pyFloat (removeChar ',' (removeChar 'M' (pyStrip s.data))) = none) ∨
          ((pyStrip s.data).contains 'M' = false ∧
            (pyStrip s.data).contains 'k' = true ∧
            pyFloat (removeChar ',' (removeChar 'k' (pyStrip s.data))) = none))) := by
  rw [convert_reviews]
  by_cases h1 : s = "NaN"
  · rw [if_pos h1]
    simp [h1]
  · rw [if_neg h1]
    by_cases h2 : pyStrip s.data = ['0'] ∨ pyStrip s.data = []
    · rw [if_pos h2]
      constructor
      · intro hx
        exact absurd hx (by simp)
      · rintro ⟨_, hb, hc, _⟩
        rcases h2 with h | h
        · exact absurd h hb
        · exact absurd h hc
    · rw [if_neg h2]
      push_neg at h2
      by_cases h3 : (pyStrip s.data).contains 'M' = true
      · rw [if_pos h3]
        cases hp : pyFloat (removeChar ',' (removeChar 'M' (pyStrip s.data))) with
        | some v =>
          constructor
          · intro hx
            exact absurd hx (by simp)
          · rintro ⟨_, _, _, hd⟩
            rcases hd with ⟨_, hnone⟩ | ⟨hMf, _, _⟩
            · cases hnone
            · rw [h3] at hMf
              cases hMf
        | none =>
          constructor
          · intro _
            exact ⟨h1, h2.1, h2.2, Or.inl ⟨h3, rfl⟩⟩
          · intro _
            rfl
      · rw [if_neg h3]
        have h3f : (pyStrip s.data).contains 'M' = false :=
          Bool.eq_false_iff.mpr h3
        by_cases h4 : (pyStrip s.data).contains 'k' = true
        · rw [if_pos h4]
          cases hp : pyFloat (removeChar ',' (removeChar 'k' (pyStrip s.data))) with
          | some v =>
            constructor
            · intro hx
              exact absurd hx (by simp)
            · rintro ⟨_, _, _, hd⟩
              rcases hd with ⟨hMt, _⟩ | ⟨_, _, hnone⟩
              · exact absurd hMt h3
              · cases hnone
          | none =>
            constructor
            · intro _
              exact ⟨h1, h2.1, h2.2, Or.inr ⟨h3f, h4, rfl⟩⟩
            · intro _
              rfl
        · rw [if_neg h4]
          have h4f : (pyStrip s.data).contains 'k' = false :=
            Bool.eq_false_iff.mpr h4
          cases hp : pyFloat (removeChar ',' (pyStrip s.data)) with
          | some v =>
            constructor
            · intro hx
              exact absurd hx (by simp)
            · rintro ⟨_, _, _, hd⟩
              rcases hd with ⟨hMt, _⟩ | ⟨_, hkt, _⟩
              · exact absurd hMt h3
              · exact absurd hkt h4
          | none =>
            constructor
            · intro hx
              exact absurd hx (by simp)
            · rintro ⟨_, _, _, hd⟩
              rcases hd with ⟨hMt, _⟩ | ⟨_, hkt, _⟩
              · exact absurd hMt h3
              · exact absurd hkt h4

/-- Exactly when the size normalizer raises. -/
theorem convert_size_error_iff (s : String) :
    convert_size (.str s) = .error () ↔
      (s ≠ "Varies with device" ∧
        (((pyStrip s.data).contains 'M' = true ∧
            pyFloat (removeChar ',' (removeChar 'M' (pyStrip s.data))) = none) ∨
          ((pyStrip s.data).contains 'M' = false ∧
            (pyStrip s.data).contains 'k' = true ∧
            pyFloat (removeChar ',' (removeChar 'k' (pyStrip s.data))) = none))) := by
  rw [convert_size]
  by_cases h1 : s = "Varies with device"
  · rw [if_pos h1]
    simp [h1]
  · rw [if_neg h1]
    by_cases h3 : (pyStrip s.data).contains 'M' = true
    · rw [if_pos h3]
      cases hp : pyFloat (removeChar ',' (removeChar 'M' (pyStrip s.data))) with
      | some v =>
        constructor
        · intro hx
          exact absurd hx (by simp)
        · rintro ⟨_, hd⟩
          rcases hd with ⟨_, hnone⟩ | ⟨hMf, _, _⟩
          · cases hnone
          · rw [h3] at hMf
            cases hMf
      | none =>
        constructor
        · intro _
          exact ⟨h1, Or.inl ⟨h3, rfl⟩⟩
        · intro _
          rfl
    · rw [if_neg h3]
      have h3f : (pyStrip s.data).contains 'M' = false :=
        Bool.eq_false_iff.mpr h3
      by_cases h4 : (pyStrip s.data).contains 'k' = true
      · rw [if_pos h4]
        cases hp : pyFloat (removeChar ',' (removeChar 'k' (pyStrip s.data))) with
        | some v =>
          constructor
          · intro hx
            exact absurd hx (by simp)
          · rintro ⟨_, hd⟩
            rcases hd with ⟨hMt, _⟩ | ⟨_, _, hnone⟩
            · exact absurd hMt h3
            · cases hnone
        | none =>
          constructor
          · intro _
            exact ⟨h1, Or.inr ⟨h3f, h4, rfl⟩⟩
          · intro _
            rfl
      · rw [if_neg h4]
        constructor
        · intro hx
          exact absurd hx (by simp)
        · rintro ⟨_, hd⟩
          rcases hd with ⟨hMt, _⟩ | ⟨_, hkt, _⟩
          · exact absurd hMt h3
          · exact absurd hkt h4

/-- C1 (amended).  Each normalizer substitutes its defined fallback on
malformed input and never raises, *except* that the count and size
normalizers raise when the cell is a string containing `M` or `k` whose
cleaned remainder fails to parse (those two `float` calls are outside the
`try` blocks); the installs, price and date normalizers never raise (they
are total functions here), falling back to 0, 0.0 and `None`. -/
theorem normalizers_fallback_on_malformed :
    (∀ s : String, convert_reviews (.str s) = .error () →
      ((pyStrip s.data).contains 'M' = true ∨
        (pyStrip s.data).contains 'k' = true)) ∧
    convert_reviews .na = .ok 0 ∧
    (∀ s : String, convert_size (.str s) = .error () →
      ((pyStrip s.data).contains 'M' = true ∨
        (pyStrip s.data).contains 'k' = true)) ∧
    convert_size .na = .ok none ∧
    (∀ s : String,
      pyIntParse (removeChar ',' (removeChar '+' (pyStrip s.data))) = none →
      convert_installs (.str s) = 0) ∧
    convert_installs .na = 0 ∧
    (∀ s : String, pyFloat (removeChar '$' (pyStrip s.data)) = none →
      convert_price (.str s) = 0) ∧
    convert_price .na = 0 ∧
    (∀ (p : String → Option Nat) (s : String), p s = none →
      convert_date p (.str s) = none) ∧
    (∀ p : String → Option Nat, convert_date p .na = none) := by
  refine ⟨?_, rfl, ?_, rfl, ?_, rfl, ?_, rfl, ?_, fun p => rfl⟩
  · intro s h
    have hc := (convert_reviews_error_iff s).mp h
    rcases hc.2.2.2 with ⟨hM, _⟩ | ⟨_, hk, _⟩
    · exact Or.inl hM
    · exact Or.inr hk
  · intro s h
    have hc := (convert_size_error_iff s).mp h
    rcases hc.2 with ⟨hM, _⟩ | ⟨_, hk, _⟩
    · exact Or.inl hM
    · exact Or.inr hk
  · intro s hp
    rw [convert_installs, hp]
    rfl
  · intro s hp
    rw [convert_price]
    split_ifs
    · rfl
    · rw [hp]
      rfl
  · intro p s hp
    rw [convert_date, hp]

/-- Witness for C1's amended statement at concrete malformed cells. -/
theorem normalizers_fallback_on_malformed_witness :
    convert_reviews (.str "N/A M") = .error () ∧
    ((pyStrip "N/A M".data).contains 'M' = true ∨
      (pyStrip "N/A M".data).contains 'k' = true) ∧
    pyIntParse (removeChar ',' (removeChar '+' (pyStrip "Free".data))) = none ∧
    convert_installs (.str "Free") = 0 ∧
    pyFloat (removeChar '$' (pyStrip "Everyone".data)) = none ∧
    convert_price (.str "Everyone") = 0 ∧
    convert_date (fun _ => none) (.str "January 7, 2018") = none := by
  have he : convert_reviews (.str "N/A M") = .error () := by
    rw [convert_reviews, if_neg (by decide), if_neg (by decide), if_pos (by decide),
      pyFloat, show parseFloatRaw
        (pyStrip (removeChar ',' (removeChar 'M' (pyStrip "N/A M".data)))) = none
        from by decide]
    rfl
  exact ⟨he, normalizers_fallback_on_malformed.1 _ he, by decide,
    normalizers_fallback_on_malformed.2.2.2.2.1 _ (by decide), by decide,
    normalizers_fallback_on_malformed.2.2.2.2.2.2.1 _ (by decide),
    normalizers_fallback_on_malformed.2.2.2.2.2.2.2.2.1 (fun _ => none) _ rfl⟩

/-- Counterexample to C1 as stated: malformed `M`-suffixed cells raise an
uncaught exception in both the count and the size normalizer instead of
being replaced by the fallback value. -/
theorem normalizer_raises_counterexample :
    convert_reviews (.str "1.2.3M") = .error () ∧
    convert_size (.str "Mxyz") = .error () := by
  constructor
  · rw [convert_reviews, if_neg (by decide), if_neg (by decide), if_pos (by decide),
      pyFloat, show parseFloatRaw
        (pyStrip (removeChar ',' (removeChar 'M' (pyStrip "1.2.3M".data)))) = none
        from by decide]
    rfl
  · rw [convert_size, if_neg (by decide), if_pos (by decide),
      pyFloat, show parseFloatRaw
        (pyStrip (removeChar ',' (removeChar 'M' (pyStrip "Mxyz".data)))) = none
        from by decide]
    rfl

/-- C4 (amended).  The count normalizer multiplies an `M`-marked value by
1,000,000 and a `k`-marked value by 1,000 (commas removed) whenever the
cleaned remainder parses; `normalize_count("1.2M") = 1200000`,
`normalize_count("500k") = 500000`, empty and missing map to 0, and an
unparseable input without an `M`/`k` marker falls back to 0 (with the
marker it raises instead — see the counterexample). -/
theorem normalize_count_spec :
    (∀ (s : String) (v : Rat), s ≠ "NaN" → pyStrip s.data ≠ ['0'] →
      pyStrip s.data ≠ [] → (pyStrip s.data).contains 'M' = true →
      pyFloat (removeChar ',' (removeChar 'M' (pyStrip s.data))) = some v →
      convert_reviews (.str s) = .ok (v * 1000000)) ∧
    (∀ (s : String) (v : Rat), s ≠ "NaN" → pyStrip s.data ≠ ['0'] →
      pyStrip s.data ≠ [] → (pyStrip s.data).contains 'M' = false →
      (pyStrip s.data).contains 'k' = true →
      pyFloat (removeChar ',' (removeChar 'k' (pyStrip s.data))) = some v →
      convert_reviews (.str s) = .ok (v * 1000)) ∧
    convert_reviews (.str "1.2M") = .ok 1200000 ∧
    convert_reviews (.str "500k") = .ok 500000 ∧
    convert_reviews (.str "") = .ok 0 ∧
    convert_reviews .na = .ok 0 ∧
    (∀ s : String, (pyStrip s.data).contains 'M' = false →
      (pyStrip s.data).contains 'k' = false →
      pyFloat (removeChar ',' (pyStrip s.data)) = none →
      convert_reviews (.str s) = .ok 0) := by
  refine ⟨?_, ?_, ?_, ?_, ?_, rfl, ?_⟩
  · intro s v h1 h2 h3 hM hp
    exact convert_reviews_M_branch s v h1 (not_or.mpr ⟨h2, h3⟩) hM hp
  · intro s v h1 h2 h3 hM hk hp
    exact convert_reviews_k_branch s v h1 (not_or.mpr ⟨h2, h3⟩) hM hk hp
  · rw [convert_reviews, if_neg (by decide), if_neg (by decide), if_pos (by decide),
      pyFloat, show parseFloatRaw
        (pyStrip (removeChar ',' (removeChar 'M' (pyStrip "1.2M".data))))
        = some ⟨1, 12, 1, 0⟩ from by decide]
    norm_num [Option.map, floatVal, pow10]
  · rw [convert_reviews, if_neg (by decide), if_neg (by decide), if_neg (by decide),
      if_pos (by decide),
      pyFloat, show parseFloatRaw
        (pyStrip (removeChar ',' (removeChar 'k' (pyStrip "500k".data))))
        = some ⟨1, 500, 0, 0⟩ from by decide]
    norm_num [Option.map, floatVal, pow10]
  · rw [convert_reviews, if_neg (by decide), if_pos (by decide)]
  · intro s hM hk hp
    by_cases h1 : s = "NaN"
    · rw [convert_reviews, if_pos h1]
    · by_cases h2 : pyStrip s.data = ['0'] ∨ pyStrip s.data = []
      · rw [convert_reviews, if_neg h1, if_pos h2]
      · exact convert_reviews_plain_fallback s h1 h2 hM hk hp

/-- Witness for C4's amended statement: the `M` rule at `3.0M`, the `k`
rule at `1,5k`, and the fallback at `abc`. -/
theorem normalize_count_spec_witness :
    convert_reviews (.str "3.0M") = .ok (3 * 1000000) ∧
    convert_reviews (.str "1,5k") = .ok (15 * 1000) ∧
    convert_reviews (.str "abc") = .ok 0 := by
  have hpM : pyFloat (removeChar ',' (removeChar 'M' (pyStrip "3.0M".data))) =
      some 3 := by
    rw [pyFloat, show parseFloatRaw
      (pyStrip (removeChar ',' (removeChar 'M' (pyStrip "3.0M".data))))
      = some ⟨1, 30, 1, 0⟩ from by decide]
    norm_num [Option.map, floatVal, pow10]
  have hpk : pyFloat (removeChar ',' (removeChar 'k' (pyStrip "1,5k".data))) =
      some 15 := by
    rw [pyFloat, show parseFloatRaw
      (pyStrip (removeChar ',' (removeChar 'k' (pyStrip "1,5k".data))))
      = some ⟨1, 15, 0, 0⟩ from by decide]
    norm_num [Option.map, floatVal, pow10]
  exact ⟨normalize_count_spec.1 "3.0M" 3 (by decide) (by decide) (by decide)
      (by decide) hpM,
    normalize_count_spec.2.1 "1,5k" 15 (by decide) (by decide) (by decide)
      (by decide) (by decide) hpk,
    normalize_count_spec.2.2.2.2.2.2 "abc" (by decide) (by decide) (by decide)⟩

/-- Counterexample to C4 as stated: an unparseable `M`-marked input
raises instead of yielding the fallback 0. -/
theorem normalize_count_counterexample :
    convert_reviews (.str "reviewsM") ≠ .ok 0 ∧
    convert_reviews (.str "reviewsM") = .error () := by
  have he : convert_reviews (.str "reviewsM") = .error () := by
    rw [convert_reviews, if_neg (by decide), if_neg (by decide), if_pos (by decide),
      pyFloat, show parseFloatRaw
        (pyStrip (removeChar ',' (removeChar 'M' (pyStrip "reviewsM".data)))) = none
        from by decide]
    rfl
  refine ⟨?_, he⟩
  rw [he]
  intro h
  cases h

/-- C5 (amended).  The size normalizer maps the sentinel
`"Varies with device"` and missing cells to the explicit missing value
(never 0); an `M`-marked value is megabytes verbatim
(`normalize_size("19M") = 19`); a `k`-marked value is divided by 1024
(`normalize_size("512k") = 0.5`); and an unparseable input without an
`M`/`k` marker yields missing, never zero (with the marker it raises —
see the counterexample). -/
theorem normalize_size_spec :
    convert_size (.str "Varies with device") = .ok none ∧
    convert_size .na = .ok none ∧
    convert_size (.str "19M") = .ok (some 19) ∧
    convert_size (.str "512k") = .ok (some (1 / 2)) ∧
    (∀ (s : String) (v : Rat), s ≠ "Varies with device" →
      (pyStrip s.data).contains 'M' = true →
      pyFloat (removeChar ',' (removeChar 'M' (pyStrip s.data))) = some v →
      convert_size (.str s) = .ok (some v)) ∧
    (∀ (s : String) (v : Rat), s ≠ "Varies with device" →
      (pyStrip s.data).contains 'M' = false →
      (pyStrip s.data).contains 'k' = true →
      pyFloat (removeChar ',' (removeChar 'k' (pyStrip s.data))) = some v →
      convert_size (.str s) = .ok (some (v / 1024))) ∧
    (∀ s : String, s ≠ "Varies with device" →
      (pyStrip s.data).contains 'M' = false →
      (pyStrip s.data).contains 'k' = false →
      pyFloat (pyStrip s.data) = none → convert_size (.str s) = .ok none) := by
  refine ⟨?_, rfl, ?_, ?_, convert_size_M_branch, convert_size_k_branch, ?_⟩
  · rw [convert_size, if_pos rfl]
  · rw [convert_size, if_neg (by decide), if_pos (by decide),
      pyFloat, show parseFloatRaw
        (pyStrip (removeChar ',' (removeChar 'M' (pyStrip "19M".data))))
        = some ⟨1, 19, 0, 0⟩ from by decide]
    norm_num [Option.map, floatVal, pow10]
  · rw [convert_size, if_neg (by decide), if_neg (by decide), if_pos (by decide),
      pyFloat, show parseFloatRaw
        (pyStrip (removeChar ',' (removeChar 'k' (pyStrip "512k".data))))
        = some ⟨1, 512, 0, 0⟩ from by decide]
    norm_num [Option.map, floatVal, pow10]
  · intro s h1 hM hk hp
    rw [convert_size_plain s h1 hM hk, hp]

/-- Witness for C5's amended statement: the `M` rule at `25M`, the `k`
rule at `900k`, and the unparseable fallback at `1,024` (the size branch
does not strip commas outside `M`/`k`). -/
theorem normalize_size_spec_witness :
    convert_size (.str "25M") = .ok (some 25) ∧
    convert_size (.str "900k") = .ok (some (900 / 1024)) ∧
    convert_size (.str "1,024") = .ok none := by
  have hpM : pyFloat (removeChar ',' (removeChar 'M' (pyStrip "25M".data))) =
      some 25 := by
    rw [pyFloat, show parseFloatRaw
      (pyStrip (removeChar ',' (removeChar 'M' (pyStrip "25M".data))))
      = some ⟨1, 25, 0, 0⟩ from by decide]
    norm_num [Option.map, floatVal, pow10]
  have hpk : pyFloat (removeChar ',' (removeChar 'k' (pyStrip "900k".data))) =
      some 900 := by
    rw [pyFloat, show parseFloatRaw
      (pyStrip (removeChar ',' (removeChar 'k' (pyStrip "900k".data))))
      = some ⟨1, 900, 0, 0⟩ from by decide]
    norm_num [Option.map, floatVal, pow10]
  exact ⟨normalize_size_spec.2.2.2.2.1 "25M" 25 (by decide) (by decide) hpM,
    normalize_size_spec.2.2.2.2.2.1 "900k" 900 (by decide) (by decide) (by decide) hpk,
    normalize_size_spec.2.2.2.2.2.2 "1,024" (by decide) (by decide) (by decide)
      (by decide)⟩

/-- Counterexample to C5 as stated: an unparseable `M`-marked input
raises instead of yielding the missing value. -/
theorem normalize_size_counterexample :
    convert_size (.str ".M.") ≠ .ok none ∧
    convert_size (.str ".M.") = .error () := by
  have he : convert_size (.str ".M.") = .error () := by
    rw [convert_size, if_neg (by decide), if_pos (by decide),
      pyFloat, show parseFloatRaw
        (pyStrip (removeChar ',' (removeChar 'M' (pyStrip ".M.".data)))) = none
        from by decide]
    rfl
  refine ⟨?_, he⟩
  rw [he]
  intro h
  cases h

/-- A three-row input for deduplication: two rows share the key `alpha`
(the later-updated one arriving second), one `beta` row has no date. -/
def dedupSample : List AppRow :=
  [⟨"alpha", some 5, 0⟩, ⟨"alpha", some 9, 1⟩, ⟨"beta", none, 2⟩]

/-- A second dedup input with a dated tie on key `gamma` and an
all-missing key `delta`. -/
def dedupTieSample : List AppRow :=
  [⟨"gamma", some 7, 0⟩, ⟨"gamma", some 7, 1⟩, ⟨"delta", none, 2⟩]

/-- Witness for C2's amended statement, using the stable merge sort as
the sorting routine: the strictly latest `alpha` row is kept; under
stability the first of the tied `gamma` rows is kept; the all-missing
`delta` key keeps its only row. -/
theorem remove_duplicates_spec_witness :
    (remove_duplicates (fun l => l.mergeSort leRow) dedupSample).1.filter
      (fun r => r.app == "alpha") = [⟨"alpha", some 9, 1⟩] ∧
    (remove_duplicates (fun l => l.mergeSort leRow) dedupSample).2 =
      dedupSample.length -
        (remove_duplicates (fun l => l.mergeSort leRow) dedupSample).1.length ∧
    (remove_duplicates (fun l => l.mergeSort leRow) dedupTieSample).1.filter
      (fun r => r.app == "gamma") = [⟨"gamma", some 7, 0⟩] ∧
    (remove_duplicates (fun l => l.mergeSort leRow) dedupTieSample).1.filter
      (fun r => r.app == "delta") = [⟨"delta", none, 2⟩] := by
  have h1 := remove_duplicates_spec (fun l => l.mergeSort leRow)
    mergeSort_sortValuesSpec dedupSample (by decide) ⟨"alpha", some 9, 1⟩ (by decide)
  have h2 := remove_duplicates_spec (fun l => l.mergeSort leRow)
    mergeSort_sortValuesSpec dedupTieSample (by decide) ⟨"gamma", some 7, 0⟩
    (by decide)
  have h3 := remove_duplicates_spec (fun l => l.mergeSort leRow)
    mergeSort_sortValuesSpec dedupTieSample (by decide) ⟨"delta", none, 2⟩
    (by decide)
  exact ⟨h1.2.1 (by decide), h1.1,
    h2.2.2.2 mergeSort_stableSortBy (by decide),
    h3.2.2.1 rfl (by decide)⟩

/-- Insertion placing a row before the first already-placed row that does
not outrank it, so that equal-timestamp rows end up in *reverse* arrival
order: a tie order an unstable sort kind is free to produce. -/
def insertTieFirst (r : AppRow) : List AppRow → List AppRow
  | [] => [r]
  | x :: xs =>
    if updRank x.lastUpdated ≤ updRank r.lastUpdated then r :: x :: xs
    else x :: insertTieFirst r xs

/-- A sorting routine built from `insertTieFirst`: descending and
permutation-correct, but it breaks dated ties toward the later row. -/
def antiStableSort (l : List AppRow) : List AppRow :=
  l.foldl (fun acc r => insertTieFirst r acc) []

/-- Two rows of the same key with equal timestamps. -/
def tiedPairSample : List AppRow :=
  [⟨"alpha", some 7, 0⟩, ⟨"alpha", some 7, 1⟩]

/-- Counterexample to C2's unconditional tie-break clause: a sorting
routine meeting everything `sort_values` guarantees for the default
(unstable) kind at this input — it produces a permutation, descending,
with the (here vacuous) missing-timestamp block in original order — under
which deduplication keeps the *second* input row of the tied key, not the
first. -/
theorem remove_duplicates_tie_counterexample :
    antiStableSort tiedPairSample =
      [⟨"alpha", some 7, 1⟩, ⟨"alpha", some 7, 0⟩] ∧
    (antiStableSort tiedPairSample).Pairwise (fun a c => leRow a c) ∧
    antiStableSort tiedPairSample ~ tiedPairSample ∧
    (antiStableSort tiedPairSample).filter (fun r => r.lastUpdated.isNone) =
      tiedPairSample.filter (fun r => r.lastUpdated.isNone) ∧
    (remove_duplicates antiStableSort tiedPairSample).1 =
      [⟨"alpha", some 7, 1⟩] ∧
    (remove_duplicates antiStableSort tiedPairSample).2 =
      tiedPairSample.length -
        (remove_duplicates antiStableSort tiedPairSample).1.length ∧
    (⟨"alpha", some 7, 1⟩ : AppRow) ≠ ⟨"alpha", some 7, 0⟩ := by
  refine ⟨by decide, by decide, ?_, by decide, by decide, rfl, by decide⟩
  rw [show antiStableSort tiedPairSample =
    [⟨"alpha", some 7, 1⟩, ⟨"alpha", some 7, 0⟩] from by decide]
  exact List.Perm.swap _ _ _
